import Mathlib

/-!
Verification of the oneapi manifest-to-CRUD interpreter.

The Go source is shallowly embedded: the dynamically typed record values
(`map[string]any` holding nil / string / int64 / float64 / bool) become the
closed `Value` variant, Go maps become association lists, and the SQLite
store behind the repository is modelled as a value-faithful row store (a
list of id-keyed rows), which is the record model the code relies on.
-/

namespace OneAPI

/-- A dynamically typed scalar record value: nil, string, int64, float64 or
bool in the Go source.  IEEE doubles are modelled abstractly as rationals:
the interpreter only stores and type-tests them, it never computes with
them. -/
inductive Value where
  | null : Value
  | str (s : String) : Value
  | int (n : Int) : Value
  | real (q : Rat) : Value
  | bool (b : Bool) : Value
deriving DecidableEq

/-- A record (`map[string]any` in the source): association list from field
name to value. -/
abbrev Record := List (String × Value)

/-- Association-list lookup, modelling Go map indexing. -/
def alookup {κ β : Type} [DecidableEq κ] : List (κ × β) → κ → Option β
  | [], _ => none
  | kv :: rest, key => if kv.1 = key then some kv.2 else alookup rest key

/-- Models `strings.TrimSpace(s) == ""` from the Go standard library (the
blank-string test of the required validator). -/
def isBlank (s : String) : Bool := s.toList.all Char.isWhitespace

/-- Fold a digit list into its base-10 value. -/
def digitsVal (l : List Char) : Nat := l.foldl (fun a c => a * 10 + (c.toNat - 48)) 0

/-- Models `strconv.ParseInt(s, 10, 64)` from the Go standard library
succeeding: an optional sign, a nonempty run of decimal digits, and the
signed value fitting in 64 bits. -/
def goParseInt64Ok (s : String) : Bool :=
  let p : Bool × List Char :=
    match s.toList with
    | '+' :: rest => (false, rest)
    | '-' :: rest => (true, rest)
    | l => (false, l)
  !p.2.isEmpty && p.2.all Char.isDigit &&
    (if p.1 then digitsVal p.2 ≤ 2 ^ 63 else digitsVal p.2 ≤ 2 ^ 63 - 1)

/-- Is the (sign-stripped, pre-exponent) part a valid decimal mantissa:
digits with at most one dot and at least one digit. -/
def mantissaOk (l : List Char) : Bool :=
  (l.count '.' ≤ 1) && (l.all fun c => c.isDigit || c == '.') && (l.any Char.isDigit)

/-- Is the part after `e`/`E` a valid exponent: optional sign then a
nonempty run of digits. -/
def exponentOk (l : List Char) : Bool :=
  let d := match l with
    | '+' :: r => r
    | '-' :: r => r
    | r => r
  !d.isEmpty && d.all Char.isDigit

/-- Models `strconv.ParseFloat(s, 64)` from the Go standard library
succeeding: sign, decimal mantissa, optional exponent, or the special
inf / infinity / nan spellings.  Hex floats, underscores and the
out-of-range error are elided; no claim depends on them. -/
def goParseFloatOk (s : String) : Bool :=
  let l := match s.toList with
    | '+' :: r => r
    | '-' :: r => r
    | r => r
  let low := l.map Char.toLower
  if low = ['i', 'n', 'f'] || low = "infinity".toList || low = ['n', 'a', 'n'] then
    true
  else
    let m := l.takeWhile fun c => !(c == 'e') && !(c == 'E')
    let rest := l.dropWhile fun c => !(c == 'e') && !(c == 'E')
    match rest with
    | [] => mantissaOk m
    | _ :: ex => mantissaOk m && exponentOk ex

/-- A field definition: `Type`, `Required`, `Variants` of the Go
`spec.FieldDef` / `storage.Field` structs (the `Type` component is named
`ftype` because `type` is reserved in Lean). -/
structure Field where
  ftype : String
  required : Bool
  variants : List String
deriving DecidableEq

/-- The required validator compiled by `NewEntity`: fails on nil and on
blank strings. -/
def requiredValidator (name : String) : Value → Option String := fun v =>
  match v with
  | Value.null => some ("field " ++ name ++ " is required")
  | Value.str s => if isBlank s then some ("field " ++ name ++ " is required") else none
  | _ => none

/-- The `string` type validator: nil or text passes, anything else fails. -/
def stringValidator (name : String) : Value → Option String := fun v =>
  match v with
  | Value.null => none
  | Value.str _ => none
  | _ => some ("field " ++ name ++ " must be a string")

/-- The `int` type validator: nil and native integers pass, text must
parse as a base-10 int64, anything else fails. -/
def intValidator (name : String) : Value → Option String := fun v =>
  match v with
  | Value.null => none
  | Value.int _ => none
  | Value.str s =>
    if goParseInt64Ok s then none else some ("field " ++ name ++ " must be a number")
  | _ => some ("field " ++ name ++ " must be an integer")

/-- The `double` type validator: nil and native floats pass, text must
parse as a float, anything else (including native integers) fails. -/
def doubleValidator (name : String) : Value → Option String := fun v =>
  match v with
  | Value.null => none
  | Value.real _ => none
  | Value.str s =>
    if goParseFloatOk s then none else some ("field " ++ name ++ " must be a number")
  | _ => some ("field " ++ name ++ " must be a number")

/-- The `enum` type validator: nil passes, text must be one of the
declared variants, anything else fails. -/
def enumValidator (name : String) (variants : List String) : Value → Option String := fun v =>
  match v with
  | Value.null => none
  | Value.str s =>
    if variants.contains s then none
    else some ("field " ++ name ++ " must be one of: " ++ String.intercalate ", " variants)
  | _ => some ("field " ++ name ++ " must be a string for enum type")

/-- The validator chain compiled for one field by `NewEntity`: the
required check when `Required`, then the type-specific validator selected
by the `switch` on `Type` (whose cases are string, int, double, enum;
`bool` and unmapped types fall through with no type validator). -/
def buildValidations (name : String) (f : Field) : List (Value → Option String) :=
  (if f.required then [requiredValidator name] else []) ++
    (if f.ftype = "string" then [stringValidator name]
     else if f.ftype = "int" then [intValidator name]
     else if f.ftype = "double" then [doubleValidator name]
     else if f.ftype = "enum" then [enumValidator name f.variants]
     else [])

/-- The compiled entity: name and field table.  The Go struct also stores
the `Validations` map; it is built from the same loop over the fields, so
it is recovered here as the derived `Entity.validations`. -/
structure Entity where
  name : String
  fields : List (String × Field)

/-- The per-field validator chains, exactly as `NewEntity` compiles
them. -/
def Entity.validations (e : Entity) : List (String × List (Value → Option String)) :=
  e.fields.map fun nf => (nf.1, buildValidations nf.1 nf.2)

/-- `Entity.Validate`: one unknown-field error per record key not in the
field table, then for every declared field every error of its chain run on
the record's value (nil when the key is absent); no short-circuiting. -/
def Entity.Validate (e : Entity) (data : Record) : List String :=
  (data.filterMap fun kv =>
    if (alookup e.fields kv.1).isNone then some ("unknown field: " ++ kv.1) else none) ++
  List.flatten (e.validations.map fun nc =>
    nc.2.filterMap fun g => g ((alookup data nc.1).getD Value.null))

/-- `Entity.GetFieldType`: the SQL storage type of a declared field
(empty string for an unknown field). -/
def Entity.GetFieldType (e : Entity) (fieldName : String) : String :=
  match alookup e.fields fieldName with
  | none => ""
  | some f =>
    if f.ftype = "string" ∨ f.ftype = "enum" then "TEXT"
    else if f.ftype = "int" then "INTEGER"
    else if f.ftype = "double" then "REAL"
    else if f.ftype = "bool" then "BOOLEAN"
    else "TEXT"

/-- `spec.EntityDef`: the manifest's per-entity field mapping. -/
structure EntityDef where
  fields : List (String × Field)
deriving DecidableEq

/-- `spec.Manifest`, reduced to the one component `LoadManifest` checks:
its entity mapping.  `none` models a nil Go map (the `entities` key absent
from the YAML document); `some []` models a present but empty mapping. -/
structure Manifest where
  entities : Option (List (String × EntityDef))
deriving DecidableEq

/-- The post-decode check of `LoadManifest`: the manifest is rejected
exactly when its entity map is nil. -/
def LoadManifest (m : Manifest) : Except String Manifest :=
  if m.entities.isNone then Except.error "manifest must have at least one entity"
  else Except.ok m

/-- `NewEntity`: compile a manifest entity definition (validator chains
are the derived `Entity.validations`). -/
def NewEntity (name : String) (d : EntityDef) : Entity :=
  { name := name, fields := d.fields }

/-- The error conditions a repository operation can produce. -/
inductive RepoError where
  | validation (errs : List String) : RepoError
  | notFound (id : Int) : RepoError
  | storage (msg : String) : RepoError
deriving DecidableEq

/-- The SQLite table backing one entity, modelled as a value-faithful row
store: each row is the auto-generated integer primary key paired with the
record of declared-field columns; `nextId` is the AUTOINCREMENT
counter. -/
structure Table where
  rows : List (Int × Record)
  nextId : Int
deriving DecidableEq

/-- The row an INSERT produces: every declared column, holding the data's
value when the key is present and NULL otherwise (the statement names only
the present declared keys; the remaining columns default to NULL). -/
def insertRow (e : Entity) (data : Record) : Record :=
  e.fields.map fun nf => (nf.1, (alookup data nf.1).getD Value.null)

/-- `SQLiteRepository.Create`: validate, and on any error report the full
list and issue no write; otherwise insert the declared keys of `data` and
return the generated primary key.  When `data` holds no declared key (an
empty payload against an entity with no required field passes validation)
the statement is `INSERT INTO t () VALUES ()` — a SQL syntax error —
modelled as a storage error with the table unchanged. -/
def repoCreate (e : Entity) (st : Table) (data : Record) : Table × Except RepoError Int :=
  let errs := e.Validate data
  if errs.isEmpty then
    let cols := data.filter fun kv => (alookup e.fields kv.1).isSome
    if cols.isEmpty then
      (st, Except.error (RepoError.storage "near \")\": syntax error"))
    else
      (⟨st.rows ++ [(st.nextId, insertRow e data)], st.nextId + 1⟩, Except.ok st.nextId)
  else
    (st, Except.error (RepoError.validation errs))

/-- `SQLiteRepository.FindByID`: the row's record plus its `id` column, or
a not-found error. -/
def repoFindByID (st : Table) (id : Int) : Except RepoError Record :=
  match alookup st.rows id with
  | none => Except.error (RepoError.notFound id)
  | some row => Except.ok (("id", Value.int id) :: row)

/-- `SQLiteRepository.List`: clamp `page` to 1 and fall back to the
default page size 10 on non-positive input, count all rows, and return
the LIMIT/OFFSET slice. -/
def repoList (st : Table) (page pageSize : Int) : List Record × Int :=
  let page := if page < 1 then 1 else page
  let pageSize := if pageSize < 1 then 10 else pageSize
  let offset := (page - 1) * pageSize
  let slice := (st.rows.drop offset.toNat).take pageSize.toNat
  (slice.map fun r => ("id", Value.int r.1) :: r.2, (st.rows.length : Int))

/-- The merged view `Update` validates: the existing record minus `id`,
overlaid with the patch (`maps.Copy(merged, data)`): patched keys take the
patch's value, patch-only keys are added. -/
def mergedView (row : Record) (id : Int) (data : Record) : Record :=
  let woId := (("id", Value.int id) :: row).filter fun kv => kv.1 != "id"
  (woId.map fun kv => (kv.1, (alookup data kv.1).getD kv.2)) ++
    (data.filter fun kv => (alookup woId kv.1).isNone)

/-- The effect of `UPDATE … SET f = ? …` on one row: every column named in
the patch takes the patch's value, every other column is unchanged. -/
def applyPatch (row data : Record) : Record :=
  row.map fun kv => (kv.1, (alookup data kv.1).getD kv.2)

/-- `SQLiteRepository.Update`: confirm existence, validate the merged
view, and on success write only the declared columns of the patch.  A
patch with no declared column produces `UPDATE t SET  WHERE id = ?` — an
empty SET clause, a SQL syntax error — modelled as a storage error with
the table unchanged. -/
def repoUpdate (e : Entity) (st : Table) (id : Int) (data : Record) :
    Table × Except RepoError Unit :=
  match alookup st.rows id with
  | none => (st, Except.error (RepoError.notFound id))
  | some row =>
    let errs := e.Validate (mergedView row id data)
    if errs.isEmpty then
      let updCols := data.filter fun kv => (alookup e.fields kv.1).isSome
      if updCols.isEmpty then
        (st, Except.error (RepoError.storage "near \"WHERE\": syntax error"))
      else
        (⟨st.rows.map fun r => if r.1 = id then (r.1, applyPatch r.2 data) else r, st.nextId⟩,
          Except.ok ())
    else
      (st, Except.error (RepoError.validation errs))

/-- The resource envelope `{id, type, attributes}` produced by the
JSON:API formatter (`typ` holds the JSON `type` tag). -/
structure Envelope where
  id : String
  typ : String
  attributes : Record
deriving DecidableEq

/-- `formatJSONapiResource`: render `id` as decimal text (0 when the `id`
value is not an int64), copy every other field into `attributes`, and tag
the envelope with the fixed string "entity" (the source comment reads
"This should be dynamically determined based on entity type"). -/
def formatJSONapiResource (data : Record) : Envelope :=
  let idNum : Int :=
    match alookup data "id" with
    | some (Value.int n) => n
    | _ => 0
  { id := toString idNum
    typ := "entity"
    attributes := data.filter fun kv => kv.1 != "id" }

/-- The `total_pages` value of the list handler's meta block:
`(total + pageSize - 1) / pageSize` over the request's raw page size, a Go
truncating integer division; `none` models the runtime panic of dividing
by zero when the raw page size is 0. -/
def listTotalPages (total pageSize : Int) : Option Int :=
  if pageSize = 0 then none else some (Int.tdiv (total + pageSize - 1) pageSize)

/-! ### Association-list helper lemmas -/

theorem alookup_map_keydep {κ β γ : Type} [DecidableEq κ]
    (l : List (κ × β)) (g : κ → β → γ) (k : κ) :
    alookup (l.map fun kv => (kv.1, g kv.1 kv.2)) k = (alookup l k).map (g k) := by
  induction l with
  | nil => rfl
  | cons kv rest ih =>
    by_cases h : kv.1 = k
    · subst h
      simp [alookup]
    · simp [alookup, h, ih]

theorem alookup_map_update {κ β : Type} [DecidableEq κ]
    (l : List (κ × β)) (i : κ) (p : β → β) :
    alookup (l.map fun r => if r.1 = i then (r.1, p r.2) else r) i =
      (alookup l i).map p := by
  induction l with
  | nil => rfl
  | cons kv rest ih =>
    by_cases h : kv.1 = i
    · subst h
      simp [alookup]
    · simp [alookup, h, ih]

theorem alookup_map_noupdate {κ β : Type} [DecidableEq κ]
    (l : List (κ × β)) (i k : κ) (p : β → β) (hk : k ≠ i) :
    alookup (l.map fun r => if r.1 = i then (r.1, p r.2) else r) k =
      alookup l k := by
  induction l with
  | nil => rfl
  | cons kv rest ih =>
    by_cases h : kv.1 = i
    · subst h
      simp [alookup, Ne.symm hk, hk, ih]
    · by_cases h2 : kv.1 = k
      · subst h2
        simp [alookup, h]
      · simp [alookup, h, h2, ih]

theorem mem_of_alookup_eq_some {κ β : Type} [DecidableEq κ]
    {l : List (κ × β)} {k : κ} {v : β} (h : alookup l k = some v) : (k, v) ∈ l := by
  induction l with
  | nil => simp [alookup] at h
  | cons kv rest ih =>
    by_cases hk : kv.1 = k
    · subst hk
      simp [alookup] at h
      subst h
      exact List.mem_cons_self _ _
    · simp [alookup, hk] at h
      exact List.mem_cons_of_mem _ (ih h)

theorem alookup_append_left {κ β : Type} [DecidableEq κ]
    {a : List (κ × β)} (b : List (κ × β)) {k : κ}
    (h : alookup a k = none) : alookup (a ++ b) k = alookup b k := by
  induction a with
  | nil => rfl
  | cons kv rest ih =>
    by_cases hk : kv.1 = k
    · simp [alookup, hk] at h
    · simp [alookup, hk] at h ⊢
      exact ih h

theorem alookup_applyPatch (row data : Record) (k : String) :
    alookup (applyPatch row data) k = (alookup row k).map fun v => (alookup data k).getD v :=
  alookup_map_keydep row (fun k v => (alookup data k).getD v) k

theorem alookup_insertRow (e : Entity) (data : Record) (k : String) :
    alookup (insertRow e data) k =
      (alookup e.fields k).map fun _ => (alookup data k).getD Value.null :=
  alookup_map_keydep e.fields (fun k _ => (alookup data k).getD Value.null) k

theorem alookup_isSome_of_mem {κ β : Type} [DecidableEq κ]
    {l : List (κ × β)} {k : κ} {v : β} (h : (k, v) ∈ l) : (alookup l k).isSome = true := by
  induction l with
  | nil => simp at h
  | cons kv rest ih =>
    by_cases hk : kv.1 = k
    · simp [alookup, hk]
    · rcases List.mem_cons.mp h with h1 | h2
      · rw [← h1] at hk
        simp at hk
      · simp [alookup, hk, ih h2]

/-! ### Concrete fixtures (the worked example of the spec: entity `task`
with `title : string required` and `status : enum[open, done] required`) -/

/-- The `task` entity of the spec's worked example. -/
def taskEntity : Entity :=
  { name := "task"
    fields :=
      [("title", { ftype := "string", required := true, variants := [] }),
       ("status", { ftype := "enum", required := true, variants := ["open", "done"] })] }

/-- The stored row of the worked example: `{title: "x", status: "open"}`. -/
def taskRow : Record := [("title", Value.str "x"), ("status", Value.str "open")]

/-- A one-row table holding `taskRow` under id 1. -/
def taskTable : Table := { rows := [(1, taskRow)], nextId := 2 }

/-- An empty table whose AUTOINCREMENT counter starts at 1. -/
def emptyTable : Table := { rows := [], nextId := 1 }

/-- An entity whose only field is optional, so an empty record passes
validation. -/
def optEntity : Entity :=
  { name := "note"
    fields := [("body", { ftype := "string", required := false, variants := [] })] }

/-- A required `bool` field. -/
def boolField : Field := { ftype := "bool", required := true, variants := [] }

/-- An entity with a `bool` field and a field of an unmapped type. -/
def flagEntity : Entity :=
  { name := "gadget"
    fields := [("flag", boolField), ("note", { ftype := "custom", required := false, variants := [] })] }

example : taskEntity.Validate [("title", Value.str "x"), ("status", Value.str "open")] = [] := by
  decide

example : taskEntity.Validate [("title", Value.str "x")] = ["field status is required"] := by
  decide

example :
    taskEntity.Validate (mergedView taskRow 1 [("status", Value.str "done")]) = [] := by decide

example :
    repoUpdate taskEntity taskTable 1 [("status", Value.str "done")] =
      ({ rows := [(1, [("title", Value.str "x"), ("status", Value.str "done")])], nextId := 2 },
        Except.ok ()) := rfl

/-! ### Claim theorems -/

/-- C5: `List(page, pageSize)` treats non-positive `page` as 1 and
non-positive `pageSize` as 10 (a fallback default, not a clamp to 1),
slices at offset `(page-1) * pageSize` over the effective values, and
returns the total row count independent of pagination. -/
theorem list_effective_pagination (st : Table) (page pageSize : Int) :
    repoList st page pageSize =
      (((st.rows.drop
            (((if page ≤ 0 then 1 else page) - 1) *
              (if pageSize ≤ 0 then 10 else pageSize)).toNat).take
          (if pageSize ≤ 0 then 10 else pageSize).toNat).map
        (fun r => ("id", Value.int r.1) :: r.2),
       (st.rows.length : Int)) := by
  have hp : (page < 1) = (page ≤ 0) := by
    apply propext
    omega
  have hs : (pageSize < 1) = (pageSize ≤ 0) := by
    apply propext
    omega
  simp only [repoList, hp, hs]

/-- C6: the list handler computes `total_pages` as
`(total + pageSize - 1) / pageSize` over the request's raw page size, not
the effective one: with `page[size]=0` and 3 rows this is an integer
division by zero (a runtime panic, modelled as `none`) instead of the
claimed `ceil(3/10) = 1`, which the same formula yields only for the
effective size 10. -/
theorem totalPages_raw_pageSize :
    listTotalPages 3 0 = none ∧ listTotalPages 3 10 = some 1 := by decide

/-- C7: the resource formatter renders `id` as decimal text and copies the
other fields into attributes, but tags every envelope with the fixed
placeholder "entity" — not the calling entity's declared name (`task`
here), contradicting the source's own comment. -/
theorem format_resource_fixed_placeholder :
    formatJSONapiResource [("id", Value.int 1), ("title", Value.str "x")] =
      { id := "1", typ := "entity", attributes := [("title", Value.str "x")] } ∧
    taskEntity.name = "task" ∧
    (formatJSONapiResource [("id", Value.int 1), ("title", Value.str "x")]).typ ≠
      taskEntity.name := by
  refine ⟨by decide, rfl, by decide⟩

/-- C8: `LoadManifest` rejects only a nil entity map (the `entities` key
absent): a manifest whose entity mapping is present but empty — a
manifest that contains no entities — is accepted, contradicting the
source's own error message "manifest must have at least one entity". -/
theorem loadManifest_empty_entities :
    LoadManifest { entities := some [] } = Except.ok { entities := some [] } ∧
    LoadManifest { entities := none } =
      Except.error "manifest must have at least one entity" :=
  ⟨rfl, rfl⟩

/-- C9 counterexample: the claim says the storage type of a `bool` field
defaults to text, but `GetFieldType` maps `bool` to BOOLEAN. -/
theorem bool_storage_type_not_text :
    flagEntity.GetFieldType "flag" = "BOOLEAN" ∧
    ¬ flagEntity.GetFieldType "flag" = "TEXT" := by decide

/-- C9 (amended): for every field whose declared type is `bool` or an
unmapped type, the compiled chain is exactly the required check (no type
validator), and the derived storage type is BOOLEAN for `bool` and
defaults to TEXT for unmapped types. -/
theorem bool_unmapped_passthrough (name : String) (f : Field)
    (h : f.ftype ≠ "string" ∧ f.ftype ≠ "int" ∧ f.ftype ≠ "double" ∧ f.ftype ≠ "enum") :
    buildValidations name f = (if f.required then [requiredValidator name] else []) ∧
    ∀ (e : Entity) (fname : String), alookup e.fields fname = some f →
      e.GetFieldType fname = if f.ftype = "bool" then "BOOLEAN" else "TEXT" := by
  obtain ⟨h1, h2, h3, h4⟩ := h
  constructor
  · simp [buildValidations, h1, h2, h3, h4]
  · intro e fname hf
    simp [Entity.GetFieldType, hf, h1, h2, h3, h4]

/-- Witness for C9: the required `bool` field compiles to the bare
required check and stores as BOOLEAN; the unmapped `custom` field stores
as TEXT. -/
theorem bool_unmapped_passthrough_witness :
    buildValidations "flag" boolField = [requiredValidator "flag"] ∧
    flagEntity.GetFieldType "flag" = "BOOLEAN" ∧
    flagEntity.GetFieldType "note" = "TEXT" := by
  have h1 := bool_unmapped_passthrough "flag" boolField (by decide)
  have h2 := bool_unmapped_passthrough "note"
      { ftype := "custom", required := false, variants := [] } (by decide)
  exact ⟨h1.1, h1.2 flagEntity "flag" rfl, h2.2 flagEntity "note" rfl⟩

/-- C2 counterexample: an empty payload against an entity with no
required field passes validation, yet `Create` returns a storage error
(the empty column list makes the INSERT malformed), not the generated
primary key, and writes nothing. -/
theorem create_empty_data_no_key :
    optEntity.Validate [] = [] ∧
    repoCreate optEntity emptyTable [] =
      (emptyTable, Except.error (RepoError.storage "near \")\": syntax error")) :=
  ⟨rfl, rfl⟩

/-- C2 (amended): `Create(data)` validates first; on any validation error
it fails with a Validation condition carrying the full error list and the
stored state is unchanged; if validation passes and `data` holds at least
one declared key, it appends a row holding exactly the declared keys of
`data` (declared columns absent from `data` are NULL, undeclared keys
never reach the row) and returns the generated primary key (a dataset with
no declared key produces a malformed INSERT and a storage error
instead). -/
theorem create_validation_gate (e : Entity) (st : Table) (data : Record) :
    (e.Validate data ≠ [] →
      repoCreate e st data = (st, Except.error (RepoError.validation (e.Validate data)))) ∧
    (e.Validate data = [] →
      (data.filter fun kv => (alookup e.fields kv.1).isSome).isEmpty = false →
      repoCreate e st data =
        ({ rows := st.rows ++ [(st.nextId, insertRow e data)], nextId := st.nextId + 1 },
          Except.ok st.nextId) ∧
      ∀ k : String, alookup (insertRow e data) k =
        (alookup e.fields k).map fun _ => (alookup data k).getD Value.null) := by
  constructor
  · intro h
    have hne : (e.Validate data).isEmpty = false := by
      cases hv : e.Validate data with
      | nil => exact absurd hv h
      | cons a l => rfl
    simp [repoCreate, hne]
  · intro h hcols
    have hemp : (e.Validate data).isEmpty = true := by simp [h]
    exact ⟨by simp [repoCreate, hemp, hcols], fun k => alookup_insertRow e data k⟩

/-- Witness for C2: creating a valid task writes one row and returns id 1;
creating a task missing its required `status` fails with that error and
leaves the empty table untouched. -/
theorem create_validation_gate_witness :
    repoCreate taskEntity emptyTable [("title", Value.str "x"), ("status", Value.str "open")] =
      ({ rows := [(1, [("title", Value.str "x"), ("status", Value.str "open")])], nextId := 2 },
        Except.ok 1) ∧
    repoCreate taskEntity emptyTable [("title", Value.str "x")] =
      (emptyTable, Except.error (RepoError.validation ["field status is required"])) := by
  have hok := (create_validation_gate taskEntity emptyTable
      [("title", Value.str "x"), ("status", Value.str "open")]).2 (by decide) (by decide)
  have hbad := (create_validation_gate taskEntity emptyTable
      [("title", Value.str "x")]).1 (by decide)
  exact ⟨hok.1, hbad⟩

/-- C4 counterexample: the empty record passes validation against an
all-optional entity, yet `Create` returns no id to feed `FindByID` — the
empty column list makes the INSERT a syntax error, so the round-trip
never starts. -/
theorem roundtrip_empty_data_fails :
    optEntity.Validate [] = [] ∧
    (repoCreate optEntity emptyTable []).1 = emptyTable ∧
    (repoCreate optEntity emptyTable []).2 =
      Except.error (RepoError.storage "near \")\": syntax error") :=
  ⟨rfl, rfl, rfl⟩

/-- C4 (amended): when `data` passes validation and holds at least one
declared key, `Create(data)` returns the generated id (`nextId`, fresh
for the table), and `FindByID` on it yields the id plus a record agreeing
with `data` on every declared field: keys of `data` keep their value
(validation guarantees they are all declared), declared fields absent
from `data` read back as NULL, and undeclared fields do not appear (a
dataset with no declared key fails with a storage error instead). -/
theorem create_find_roundtrip (e : Entity) (st : Table) (data : Record)
    (hval : e.Validate data = [])
    (hcols : (data.filter fun kv => (alookup e.fields kv.1).isSome).isEmpty = false)
    (hfresh : alookup st.rows st.nextId = none) :
    (repoCreate e st data).2 = Except.ok st.nextId ∧
    repoFindByID (repoCreate e st data).1 st.nextId =
      Except.ok (("id", Value.int st.nextId) :: insertRow e data) ∧
    (∀ k v, alookup data k = some v → alookup (insertRow e data) k = some v) ∧
    (∀ nf : String × Field, nf ∈ e.fields → alookup data nf.1 = none →
      alookup (insertRow e data) nf.1 = some Value.null) ∧
    (∀ k, alookup e.fields k = none → alookup (insertRow e data) k = none) := by
  have hemp : (e.Validate data).isEmpty = true := by simp [hval]
  have hdecl : ∀ kv : String × Value, kv ∈ data → (alookup e.fields kv.1).isNone = false := by
    intro kv hkv
    unfold Entity.Validate at hval
    have h0 := (List.append_eq_nil.mp hval).1
    have h1 := (List.filterMap_eq_nil_iff.mp h0) kv hkv
    by_cases hc : (alookup e.fields kv.1).isNone = true
    · simp [hc] at h1
    · exact Bool.eq_false_iff.mpr hc
  refine ⟨by simp [repoCreate, hemp, hcols], ?_, ?_, ?_, ?_⟩
  · have hrows : (repoCreate e st data).1.rows =
        st.rows ++ [(st.nextId, insertRow e data)] := by
      simp [repoCreate, hemp, hcols]
    rw [repoFindByID, hrows, alookup_append_left _ hfresh]
    simp [alookup]
  · intro k v hk
    have hmem := mem_of_alookup_eq_some hk
    have hf := hdecl (k, v) hmem
    rw [alookup_insertRow]
    cases hfe : alookup e.fields k with
    | none => simp [hfe] at hf
    | some f => simp [hk]
  · intro nf hnf hnone
    have hsome := alookup_isSome_of_mem hnf
    rw [alookup_insertRow]
    cases hfe : alookup e.fields nf.1 with
    | none => simp [hfe] at hsome
    | some f => simp [hnone]
  · intro k hk
    rw [alookup_insertRow, hk]
    rfl

/-- Witness for C4: the worked example round-trips through an empty
table. -/
theorem create_find_roundtrip_witness :
    (repoCreate taskEntity emptyTable
        [("title", Value.str "x"), ("status", Value.str "open")]).2 = Except.ok 1 ∧
    repoFindByID (repoCreate taskEntity emptyTable
        [("title", Value.str "x"), ("status", Value.str "open")]).1 1 =
      Except.ok [("id", Value.int 1), ("title", Value.str "x"), ("status", Value.str "open")] := by
  have h := create_find_roundtrip taskEntity emptyTable
      [("title", Value.str "x"), ("status", Value.str "open")] (by decide) (by decide) (by decide)
  exact ⟨h.1, h.2.1⟩

/-- C3: `Validate` is total and returns the complete error set: it
contains an unknown-field error for every record key outside the declared
fields, every error any declared field's validator chain produces on the
record's value (null when the key is absent), and in particular the
required-field error for every required field whose value is missing or
null — no short-circuiting within a chain or across fields. -/
theorem validate_complete (e : Entity) (data : Record) :
    (∀ kv : String × Value, kv ∈ data → alookup e.fields kv.1 = none →
      ("unknown field: " ++ kv.1) ∈ e.Validate data) ∧
    (∀ nf : String × Field, nf ∈ e.fields → ∀ err : String,
      err ∈ (buildValidations nf.1 nf.2).filterMap
        (fun g => g ((alookup data nf.1).getD Value.null)) →
      err ∈ e.Validate data) ∧
    (∀ nf : String × Field, nf ∈ e.fields → nf.2.required = true →
      (alookup data nf.1).getD Value.null = Value.null →
      ("field " ++ nf.1 ++ " is required") ∈ e.Validate data) := by
  have hfield : ∀ nf : String × Field, nf ∈ e.fields → ∀ err : String,
      err ∈ (buildValidations nf.1 nf.2).filterMap
        (fun g => g ((alookup data nf.1).getD Value.null)) →
      err ∈ e.Validate data := by
    intro nf hnf err herr
    unfold Entity.Validate
    refine List.mem_append.mpr (Or.inr ?_)
    refine List.mem_flatten.mpr ⟨_, ?_, herr⟩
    exact List.mem_map.mpr ⟨(nf.1, buildValidations nf.1 nf.2),
      List.mem_map.mpr ⟨nf, hnf, rfl⟩, rfl⟩
  refine ⟨?_, hfield, ?_⟩
  · intro kv hkv hnone
    unfold Entity.Validate
    refine List.mem_append.mpr (Or.inl ?_)
    refine List.mem_filterMap.mpr ⟨kv, hkv, ?_⟩
    simp [hnone]
  · intro nf hnf hreq hnull
    refine hfield nf hnf _ ?_
    refine List.mem_filterMap.mpr ⟨requiredValidator nf.1, ?_, ?_⟩
    · simp [buildValidations, hreq]
    · rw [hnull]
      rfl

/-- Witness for C3: a record with only the unknown key `zz` yields the
unknown-field error and both required-field errors at once. -/
theorem validate_complete_witness :
    ("unknown field: zz") ∈ taskEntity.Validate [("zz", Value.int 7)] ∧
    ("field title is required") ∈ taskEntity.Validate [("zz", Value.int 7)] ∧
    ("field status is required") ∈ taskEntity.Validate [("zz", Value.int 7)] := by
  have h := validate_complete taskEntity [("zz", Value.int 7)]
  exact ⟨h.1 ("zz", Value.int 7) (by decide) (by decide),
    h.2.2 ("title", { ftype := "string", required := true, variants := [] })
      (by decide) (by decide) (by decide),
    h.2.2 ("status", { ftype := "enum", required := true, variants := ["open", "done"] })
      (by decide) (by decide) (by decide)⟩

/-- Lookup of the updated id in the row list `UPDATE` produces. -/
theorem alookup_rows_patched (rows : List (Int × Record)) (id : Int) (patch : Record) :
    alookup (rows.map fun r => if r.1 = id then (r.1, applyPatch r.2 patch) else r) id =
      (alookup rows id).map fun rec => applyPatch rec patch :=
  alookup_map_update rows id fun rec => applyPatch rec patch

/-- C1: when the row exists and the merged view (existing record minus
`id` overlaid with the patch) validates — which is the only validation
`Update` performs, so a patch omitting a required field succeeds whenever
the merged view carries the existing value — `Update` with a patch
naming at least one declared column succeeds, writes only the patched
columns, and `FindByID` then shows every patched field at its new value
and every unpatched field unchanged. -/
theorem update_merged_view (e : Entity) (st : Table) (id : Int) (patch row : Record)
    (hrow : alookup st.rows id = some row)
    (hvalid : e.Validate (mergedView row id patch) = [])
    (hcols : (patch.filter fun kv => (alookup e.fields kv.1).isSome).isEmpty = false) :
    (repoUpdate e st id patch).2 = Except.ok () ∧
    repoFindByID (repoUpdate e st id patch).1 id =
      Except.ok (("id", Value.int id) :: applyPatch row patch) ∧
    (∀ k v, k ≠ "id" → alookup patch k = some v → (alookup row k).isSome = true →
      alookup (("id", Value.int id) :: applyPatch row patch) k = some v) ∧
    (∀ k, k ≠ "id" → alookup patch k = none →
      alookup (("id", Value.int id) :: applyPatch row patch) k = alookup row k) := by
  have hemp : (e.Validate (mergedView row id patch)).isEmpty = true := by simp [hvalid]
  have hstate : repoUpdate e st id patch =
      ({ rows := st.rows.map fun r => if r.1 = id then (r.1, applyPatch r.2 patch) else r,
         nextId := st.nextId }, Except.ok ()) := by
    unfold repoUpdate
    rw [hrow]
    simp [hemp, hcols]
  refine ⟨by rw [hstate], ?_, ?_, ?_⟩
  · rw [hstate]
    unfold repoFindByID
    rw [alookup_rows_patched, hrow]
    rfl
  · intro k v hk hp hsome
    obtain ⟨v0, hv0⟩ := Option.isSome_iff_exists.mp hsome
    simp [alookup, Ne.symm hk, alookup_applyPatch, hv0, hp]
  · intro k hk hp
    cases hr : alookup row k <;>
      simp [alookup, Ne.symm hk, alookup_applyPatch, hp, hr]

/-- Witness for C1: the spec's worked example — patching only `status`
succeeds although `title` is required and absent from the patch, and the
read-back shows `status = done` with `title` unchanged. -/
theorem update_merged_view_witness :
    (repoUpdate taskEntity taskTable 1 [("status", Value.str "done")]).2 = Except.ok () ∧
    repoFindByID (repoUpdate taskEntity taskTable 1 [("status", Value.str "done")]).1 1 =
      Except.ok [("id", Value.int 1), ("title", Value.str "x"), ("status", Value.str "done")] := by
  have h := update_merged_view taskEntity taskTable 1 [("status", Value.str "done")] taskRow
      (by decide) (by decide) (by decide)
  exact ⟨h.1, h.2.1⟩

/-- C10: an empty patch on an existing, valid row passes merged-view
validation but is not a successful no-op: the empty SET clause makes the
UPDATE statement malformed, so `Update` returns a storage error and the
row is unchanged. -/
theorem update_empty_patch (e : Entity) (st : Table) (id : Int) (row : Record)
    (hrow : alookup st.rows id = some row)
    (hvalid : e.Validate (mergedView row id []) = []) :
    (repoUpdate e st id []).1 = st ∧
    (∃ msg, (repoUpdate e st id []).2 = Except.error (RepoError.storage msg)) ∧
    repoFindByID (repoUpdate e st id []).1 id = Except.ok (("id", Value.int id) :: row) := by
  have hemp : (e.Validate (mergedView row id [])).isEmpty = true := by simp [hvalid]
  have hstate : repoUpdate e st id [] =
      (st, Except.error (RepoError.storage "near \"WHERE\": syntax error")) := by
    unfold repoUpdate
    rw [hrow]
    simp [hemp]
  refine ⟨by rw [hstate], ⟨_, by rw [hstate]⟩, ?_⟩
  rw [hstate]
  unfold repoFindByID
  rw [hrow]

/-- Witness for C10: the empty patch against the worked example's row
leaves the table unchanged and reports a storage error. -/
theorem update_empty_patch_witness :
    (repoUpdate taskEntity taskTable 1 []).1 = taskTable ∧
    (∃ msg, (repoUpdate taskEntity taskTable 1 []).2 = Except.error (RepoError.storage msg)) ∧
    repoFindByID (repoUpdate taskEntity taskTable 1 []).1 1 =
      Except.ok [("id", Value.int 1), ("title", Value.str "x"), ("status", Value.str "open")] := by
  have h := update_empty_patch taskEntity taskTable 1 taskRow (by decide) (by decide)
  exact ⟨h.1, h.2.1, h.2.2⟩

end OneAPI
